import Mathlib

/-!
Verification development for the enigma-core worker.

Shallow embedding of the components reached by the checked properties:
the symmetric codec (enigma-crypto/src/symmetric.rs), the WASM import
resolver and executor (enigma-core/enclave/src/wasm_g/eng_resolver.rs and
execution.rs), the sealed document storage
(enigma-tools-t/src/document_storage_t.rs), the IPC message layer
(enigma-core/app/src/networking/messages.rs), the worker entry point
(enigma-core/app/src/main.rs), the state/delta engine
(enigma-runtime-t/src/data/mod.rs) and the epoch worker-selection
algorithm (enigma-tools-t/src/eth_tools_t/epoch_t.rs).

Machine integers are modelled as `Nat` with explicit `% 2^w` where wrap
matters; Rust panics are modelled by an explicit `Panic` result layer;
fallible Rust functions return `Except`.
-/

namespace Enigma

/-- Result of a Rust computation that may panic: `panicked msg` models a
Rust `panic!`/`unwrap`/`expect` abort, `value v` a normal return. -/
inductive Panic (α : Type) where
  | panicked : String → Panic α
  | value : α → Panic α
  deriving Repr, DecidableEq

/-- Error kinds of `EnclaveError` (enigma-tools-t common/errors_t.rs) that
the embedded functions construct. -/
inductive EnclaveError where
  | executionError : String → String → EnclaveError
  | workerAuthError : String → EnclaveError
  | ocallError : String → String → EnclaveError
  deriving Repr, DecidableEq

/-- Error kinds of `CryptoError` (enigma-crypto) that the symmetric codec
constructs. -/
inductive CryptoError where
  | improperEncryption : CryptoError
  | decryptionError : CryptoError
  | encryptionError : CryptoError
  | keyError : String → CryptoError
  deriving Repr, DecidableEq

/-! ## Symmetric codec — enigma-crypto/src/symmetric.rs

The AEAD primitive itself (`ring::aead`, AES-256-GCM) is an external
library; it is embedded as an `AeadScheme` record carrying the two
facts the codec relies on: sealing appends a 16-byte tag, and opening a
sealed buffer with the same key and nonce recovers the message. The
repository code under verification is the buffer layout around it:
`ciphertext || tag || nonce`, the 12-byte nonce split, and the
`ImproperEncryption` length check. -/

/-- `IV_SIZE = 96/8` (symmetric.rs). -/
def IV_SIZE : Nat := 96 / 8

/-- Embedding of `ring::aead` AES-256-GCM as used by symmetric.rs: `aeadSeal`
maps key, nonce and message to ciphertext-with-tag (`seal_in_place`),
`aeadOpen` authenticates and decrypts (`open_in_place`, `none` = authentication
failure). The two laws are the AEAD functional correctness the library
guarantees. -/
structure AeadScheme where
  aeadSeal : List Nat → List Nat → List Nat → List Nat
  aeadOpen : List Nat → List Nat → List Nat → Option (List Nat)
  aeadSeal_length : ∀ k iv m, (aeadSeal k iv m).length = m.length + 16
  aeadOpen_aeadSeal : ∀ k iv m, aeadOpen k iv (aeadSeal k iv m) = some m

/-- `encrypt_with_nonce` (symmetric.rs lines 18-42): seal the message in
place (producing `ciphertext || tag`) and append the 12-byte nonce. A
caller-supplied nonce (`some iv`) is used as is; `none` draws `randomIv`
from the platform random source. -/
def encrypt_with_nonce (S : AeadScheme) (message : List Nat) (key : List Nat)
    (ivOpt : Option (List Nat)) (randomIv : List Nat) : Except CryptoError (List Nat) :=
  let iv := ivOpt.getD randomIv
  .ok (S.aeadSeal key iv message ++ iv)

/-- `decrypt` (symmetric.rs lines 45-60): reject inputs shorter than the
nonce, split the trailing 12 bytes off as the nonce, and open the rest;
authentication failure is a bare `DecryptionError`. -/
def decrypt (S : AeadScheme) (cipheriv : List Nat) (key : List Nat) :
    Except CryptoError (List Nat) :=
  if cipheriv.length < IV_SIZE then
    .error .improperEncryption
  else
    let ciphertext := cipheriv.take (cipheriv.length - IV_SIZE)
    let iv := cipheriv.drop (cipheriv.length - IV_SIZE)
    match S.aeadOpen key iv ciphertext with
    | some m => .ok m
    | none => .error .decryptionError

/-- A concrete `AeadScheme` used to witness theorems quantified over
schemes: sealing appends sixteen `0` bytes, opening drops them. -/
def toyAead : AeadScheme where
  aeadSeal := fun _ _ m => m ++ List.replicate 16 0
  aeadOpen := fun _ _ c => if 16 ≤ c.length then some (c.take (c.length - 16)) else none
  aeadSeal_length := by intro k iv m; simp
  aeadOpen_aeadSeal := by
    intro k iv m
    simp

/-! ## WASM import resolver — enigma-core/enclave/src/wasm_g/eng_resolver.rs

`ImportResolver` carries `max_memory` (in 64 KiB pages). `resolve_func`
matches on the imported field name (the commented-out "moria" arm aside,
only "ret" is mapped to a host function); `resolve_memory` accepts only
the name "memory" and bounds both the initial and the effective maximum
size by `max_memory`. -/

/-- `ids::RET_FUNC` (eng_resolver.rs). -/
def RET_FUNC : Nat := 1

/-- `ImportResolver::resolve_func` (eng_resolver.rs lines 81-94): only the
field name "ret" resolves, to the host function index `RET_FUNC`; every
other name yields `Error::Instantiation("Export {name} not found")`. The
signature argument is ignored by the source (`_signature`). -/
def resolve_func (field_name : String) : Except String Nat :=
  if field_name = "ret" then .ok RET_FUNC
  else .error ("Export " ++ field_name ++ " not found")

/-- A resolved memory instance: the pages actually allocated
(`MemoryInstance::alloc(initial, maximum)`). -/
structure MemRef where
  initial : Nat
  maximum : Option Nat
  deriving Repr, DecidableEq

/-- `ImportResolver::resolve_memory` (eng_resolver.rs lines 96-117): for
the field name "memory", the effective maximum is the declared maximum,
defaulting to `max_memory + 1` when absent; the import is rejected with
an instantiation error when the initial size exceeds `max_memory` or the
effective maximum does; any other field name is rejected. -/
def resolve_memory (max_memory : Nat) (field_name : String) (initial : Nat)
    (maximum : Option Nat) : Except String MemRef :=
  if field_name = "memory" then
    let effective_max := maximum.getD (max_memory + 1)
    if initial > max_memory ∨ effective_max > max_memory then
      .error "Module requested too much memory"
    else
      .ok { initial := initial, maximum := maximum }
  else
    .error "Memory imported under unknown name"

/-! ## WASM executor — enigma-core/enclave/src/wasm_g/execution.rs -/

/-- The import section of a decoded WASM module, as wasmi hands it to the
"env" resolver during `ModuleInstance::new`: the imported function field
names and the (at most one) imported linear memory with its declared
initial and optional maximum page counts. -/
structure WasmImports where
  funcImports : List String
  memoryImport : Option (String × Nat × Option Nat)
  deriving Repr, DecidableEq

/-- Resolution of a imports of a module against
`ImportResolver::with_limit(max_memory)` under the "env" module name, as
performed inside `ModuleInstance::new`: every imported function goes
through `resolve_func`, the imported memory through `resolve_memory`;
the first failure aborts instantiation. -/
def resolveImports (max_memory : Nat) (m : WasmImports) : Except String Unit := do
  let _ ← m.funcImports.foldlM (fun _ name => do
    let _ ← resolve_func name
    pure ()) ()
  match m.memoryImport with
  | none => pure ()
  | some (name, ini, mx) => do
      let _ ← resolve_memory max_memory name ini mx
      pure ()

/-- The data `Runtime::into_result` yields on success (execution.rs):
result bytes, used gas and the post-execution contract state (the state
type is a parameter; the executor treats it opaquely). -/
structure RuntimeResult (σ : Type) where
  resultBytes : List Nat
  usedGas : Nat
  newState : σ
  deriving Repr, DecidableEq

/-- `execute` (execution.rs lines 93-115), instantiation and invocation:
the module is instantiated against `ImportResolver::with_limit(64)` under
"env"; the result of `ModuleInstance::new` is unwrapped with
`.expect("failed to instantiate wasm module")`, so a resolution failure
PANICS rather than returning an error. On successful instantiation the
outcome of `invoke_export("call", ...)` (external wasmi interpretation,
passed here as `invoke`) is collected: `Ok` yields the runtime result,
`Err(e)` becomes `EnclaveError::ExecutionError`. The prior state is only
read; a new state exists only inside a returned `RuntimeResult`. -/
def execute (m : WasmImports) (invoke : Except String (RuntimeResult σ)) :
    Panic (Except EnclaveError (RuntimeResult σ)) :=
  match resolveImports 64 m with
  | .error _ => .panicked "failed to instantiate wasm module"
  | .ok _ =>
    match invoke with
    | .ok v => .value (.ok v)
    | .error e => .value (.error (.executionError "deployment code" e))


/-! ## Sealed document storage — enigma-tools-t/src/document_storage_t.rs -/

/-- The SGX status values distinguished by `unseal`: `macMismatch` is
`SGX_ERROR_MAC_MISMATCH`; `other` covers every different failure status. -/
inductive SgxStatus where
  | macMismatch : SgxStatus
  | other : String → SgxStatus
  deriving Repr, DecidableEq

/-- `SealedDocumentStorage::unseal` (document_storage_t.rs lines 46-69)
over the outcome of the platform sealing primitive on the given log:
`parsed = none` models `from_sealed_log` finding no sealed data,
`some (.ok d)` a successful `unseal_data`, `some (.error st)` an
`unseal_data` failure with SGX status `st`. The source returns an
`OcallError` when the log holds no sealed data, returns `Ok(None)` when
the status is exactly `SGX_ERROR_MAC_MISMATCH`, and returns an
`OcallError` for every other failure status. -/
def unsealDocument (parsed : Option (Except SgxStatus α)) :
    Except EnclaveError (Option α) :=
  match parsed with
  | none => .error (.ocallError "unseal" "Data not found in the sealed_log.")
  | some (.ok d) => .ok (some d)
  | some (.error err) =>
      if err ≠ SgxStatus.macMismatch then
        .error (.ocallError "unseal" "unseal_data failed")
      else
        .ok none

/-! ## Worker entry point — enigma-core/app/src/main.rs -/

/-- Exit code of `main` (main.rs lines 48-65) as a function of the two
fallible steps it performs: `esgx::general::init_enclave_wrapper()` and
the awaited server future `server.run(...).wait()`. On enclave-init
failure, `main` prints and `return`s — the process exits with code 0. On
init success, the server result is `.unwrap()`ed: an `Err` panics the
main thread, which exits the process with the Rust panic exit code 101;
otherwise the process ends normally with 0. -/
def mainExitCode (initEnclave : Except String Unit) (serverWait : Except String Unit) :
    Nat :=
  match initEnclave with
  | .error _ => 0
  | .ok _ =>
    match serverWait with
    | .error _ => 101
    | .ok _ => 0

/-! ## IPC messages and the dispatcher boundary —
enigma-core/app/src/networking/messages.rs -/

/-- `IpcResults` (messages.rs): the typed success payloads. Byte-array
payloads are hex strings in the source and are kept as `String` here;
structured sub-payloads are reduced to the fields the claims touch. -/
inductive IpcResults where
  | errors : List (String × Option Nat × Int) → IpcResults
  | request : String → String → IpcResults
  | addresses : List String → IpcResults
  | delta : String → IpcResults
  | deltas : List (Option String × Nat × Option String) → IpcResults
  | bytecode : String → IpcResults
  | status : Int → IpcResults
  | tips : List (Option String × Nat × Option String) → IpcResults
  | updateDeltasResult : Int → List (String × Option Nat × Int) → IpcResults
  | dhKey : String → String → IpcResults
  | registrationParams : String → String → String → IpcResults
  | computeResult : Nat → String → String → IpcResults
  | deployResult : String → Nat → String → String → IpcResults
  deriving Repr, DecidableEq

/-- `IpcResponse` (messages.rs): one variant per request type plus the
`Error { msg }` variant the dispatcher produces for failed handlers. -/
inductive IpcResponse where
  | getRegistrationParams : IpcResults → IpcResponse
  | identityChallenge : String → String → IpcResponse
  | getTip : IpcResults → IpcResponse
  | getTips : IpcResults → IpcResponse
  | getAllTips : IpcResults → IpcResponse
  | getAllAddrs : IpcResults → IpcResponse
  | getDelta : IpcResults → IpcResponse
  | getDeltas : IpcResults → IpcResponse
  | getContract : IpcResults → IpcResponse
  | updateNewContract : String → IpcResults → IpcResponse
  | updateDeltas : IpcResults → IpcResponse
  | newTaskEncryptionKey : IpcResults → IpcResponse
  | deploySecretContract : IpcResults → IpcResponse
  | computeTask : IpcResults → IpcResponse
  | getPTTRequest : IpcResults → IpcResponse
  | pttResponse : IpcResults → IpcResponse
  | errorResponse : String → IpcResponse
  deriving Repr, DecidableEq

/-- `IpcRequest` (messages.rs): the inbound request variants; input
payloads reduced to the fields the claims touch. -/
inductive IpcRequest where
  | getRegistrationParams : IpcRequest
  | identityChallenge : String → IpcRequest
  | getTip : String → IpcRequest
  | getTips : List String → IpcRequest
  | getAllTips : IpcRequest
  | getAllAddrs : IpcRequest
  | getDelta : Option String → Nat → Option String → IpcRequest
  | getDeltas : List (String × Nat × Nat) → IpcRequest
  | getContract : String → IpcRequest
  | updateNewContract : String → String → IpcRequest
  | updateDeltas : List (Option String × Nat × Option String) → IpcRequest
  | newTaskEncryptionKey : String → IpcRequest
  | deploySecretContract : Option String → String → String → String → Nat → String → IpcRequest
  | computeTask : Option String → String → String → String → Nat → String → IpcRequest
  | getPTTRequest : List String → IpcRequest
  | pttResponse : String → IpcRequest
  deriving Repr, DecidableEq

/-- `IpcMessageKind` (messages.rs): a message body is either a response
or a request. -/
inductive IpcMessageKind where
  | ipcResponse : IpcResponse → IpcMessageKind
  | ipcRequest : IpcRequest → IpcMessageKind
  deriving Repr, DecidableEq

/-- `IpcMessage` (messages.rs): the opaque request id together with the
body. -/
structure IpcMessage where
  id : String
  kind : IpcMessageKind
  deriving Repr, DecidableEq

/-- `IpcMessage::from_response` (messages.rs): wrap a response with the
request id it answers. -/
def IpcMessage.from_response (res : IpcResponse) (id : String) : IpcMessage :=
  { id := id, kind := .ipcResponse res }

/-- `impl From<Message> for IpcMessage` (messages.rs lines 198-205) over
the result of the external `serde_json::from_str` parse of the frame:
a successful parse yields the message, while the source calls
`.expect(msg_str)` on the parse result, so a frame that does not parse
as a valid `IpcMessage` PANICS. -/
def ipcMessageFromFrame (parsed : Except String IpcMessage) : Panic IpcMessage :=
  match parsed with
  | .ok m => .value m
  | .error msg => .panicked msg

/-- `UnwrapError::unwrap_or_error` (messages.rs lines 215-229): a failed
handler result is converted into the `Error { msg }` response variant. -/
def unwrap_or_error (r : Except String IpcResponse) : IpcResponse :=
  match r with
  | .ok m => m
  | .error e => .errorResponse e

/-- `IpcMessage::unwrap_request` (messages.rs): panics when the message
body is a response. -/
def IpcMessage.unwrap_request (m : IpcMessage) : Panic IpcRequest :=
  match m.kind with
  | .ipcRequest r => .value r
  | .ipcResponse _ => .panicked "called IpcMessage::unwrap_request() on a IpcResponse value"

/-- Modelled from the spec: the dispatcher loop body
(`ipc_listener::handle_message`, referenced from main.rs but not under
src/) — "For each inbound message: parse; match on type; invoke the
corresponding handler; serialize the result as a JSON object carrying
the same id ... or an Error { msg } variant". The parse step is the
in-src `From<Message> for IpcMessage` conversion (which panics on a
frame that does not parse); the request body is extracted with the
in-src `unwrap_request` (which panics on a response body); the handler
outcome goes through the in-src `unwrap_or_error` and is paired with the
original id by the in-src `from_response`. -/
def handle_message (parsed : Except String IpcMessage)
    (handler : IpcRequest → Except String IpcResponse) : Panic IpcMessage :=
  match ipcMessageFromFrame parsed with
  | .panicked e => .panicked e
  | .value msg =>
    match msg.unwrap_request with
    | .panicked e => .panicked e
    | .value req => .value (IpcMessage.from_response (unwrap_or_error (handler req)) msg.id)

/-! ## State and delta engine — enigma-runtime-t/src/data/mod.rs -/

/-- `ContractState` (enigma-runtime-t/src/data): contract id, JSON
document (opaque type parameter `J`), hash of the last applied delta and
the delta index. Field layout as used by the tests in data/mod.rs. -/
structure ContractState (J : Type) where
  contract_id : Nat
  json : J
  delta_hash : List Nat
  delta_index : Nat
  deriving Repr, DecidableEq

/-- `StatePatch` (enigma-runtime-t/src/data): the JSON-patch document
(opaque type parameter `P`), the hash link to the previous delta, the
contract id and the sequence index. -/
structure StatePatch (P : Type) where
  patch : P
  previous_hash : List Nat
  contract_id : Nat
  index : Nat
  deriving Repr, DecidableEq

/-- Modelled from the spec: `DeltasInterface::generate_delta` for
`ContractState` — the implementing file (enigma-runtime-t/src/data, state
or delta module) is not under src/, only the trait (data/mod.rs lines
14-17) and the test `test_generate_delta` (data/mod.rs lines 166-183)
are. Per the spec, the patch body is the JSON-patch diff of the two
documents (`json_patch::diff`, external, passed as `diff`) and
`previous_hash` is the last delta hash of the old state. For the index, the
in-src test is decisive where it contradicts the words of the spec: from a
`before` state with `delta_index = 0` the test expects a patch with
`index = 1`, so the index is `old.delta_index + 1`. -/
def generate_delta (diff : J → J → P) (old new : ContractState J) :
    Except EnclaveError (StatePatch P) :=
  .ok { patch := diff old.json new.json
        previous_hash := old.delta_hash
        contract_id := old.contract_id
        index := old.delta_index + 1 }


/-! ## Epoch worker selection — enigma-tools-t/src/eth_tools_t/epoch_t.rs

`U256` values are `Nat`s below `TWO256`; `H256`/`Hash` values are `Nat`s
encoded big-endian on 32 bytes; `H160` worker addresses are opaque `Nat`s.
The `rlp` crate function `encode` applied to `WorkerSelectionToken` (epoch_t.rs lines
25-39) is embedded below: an RLP list of three items, the two `U256`
fields as minimal big-endian strings (the `bigint` `Encodable` impl trims
leading zero bytes) and the `H256` field as a full 32-byte string.
`keccak256` (tiny-keccak, external) is a parameter. -/

/-- `2^256`, the `U256` modulus. -/
def TWO256 : Nat := 2 ^ 256

/-- Big-endian bytes of `n` on exactly `width` bytes. -/
def beBytes (width n : Nat) : List Nat :=
  (List.range width).map (fun i => n / 256 ^ (width - 1 - i) % 256)

/-- Minimal big-endian encoding of a `U256`: the 32-byte buffer of
`to_big_endian` with the leading zero bytes dropped (the `bigint`
``impl Encodable for U256`); `0` encodes as the empty string. -/
def minBE256 (n : Nat) : List Nat := (beBytes 32 n).dropWhile (· = 0)

/-- RLP encoding of a byte string (`encode_value`): a single byte below
`0x80` stands for itself; otherwise a length prefix `0x80 + len` (short
form, up to 55 bytes) or `0xb7 + len-of-len` followed by the big-endian
length (long form). -/
def rlpStr (b : List Nat) : List Nat :=
  match b with
  | [x] => if x < 128 then [x] else [129, x]
  | _ =>
    if b.length ≤ 55 then (128 + b.length) :: b
    else
      let lenBE := (beBytes 8 b.length).dropWhile (· = 0)
      (183 + lenBE.length) :: (lenBE ++ b)

/-- RLP encoding of a list with the given encoded payload
(`begin_list` framing): `0xc0 + len` short form or `0xf7 + len-of-len`
long form. -/
def rlpListPayload (payload : List Nat) : List Nat :=
  if payload.length ≤ 55 then (192 + payload.length) :: payload
  else
    let lenBE := (beBytes 8 payload.length).dropWhile (· = 0)
    (247 + lenBE.length) :: (lenBE ++ payload)

/-- `rlp::encode(&WorkerSelectionToken { seed, sc_addr, nonce })`
(epoch_t.rs lines 32-39): `begin_list(3)` followed by the seed (`U256`,
minimal big-endian), the contract address (`H256`, 32 bytes) and the
nonce (`U256`, minimal big-endian). -/
def encodeToken (seed scAddr nonce : Nat) : List Nat :=
  rlpListPayload (rlpStr (minBE256 seed) ++ rlpStr (beBytes 32 scAddr) ++
    rlpStr (minBE256 nonce))

/-- The token encoding as the words of the spec describe it, for comparison:
"the specific encoding of (seed, contract_address, selection_nonce)
(three 32-byte big-endian fields)" — a flat 96-byte concatenation. -/
def specTokenEncoding (seed scAddr nonce : Nat) : List Nat :=
  beBytes 32 seed ++ beBytes 32 scAddr ++ beBytes 32 nonce

/-- `WorkerParams` (epoch_t.rs lines 43-50). Workers are `H160`
addresses, balances `U256` stakes. -/
structure WorkerParams where
  block_number : Nat
  workers : List Nat
  balances : List Nat
  nonce : Nat
  seed : Nat
  deriving Repr, DecidableEq

/-- `U256` addition (the `uint` crate): panics on overflow. -/
def u256add (a b : Nat) : Panic Nat :=
  if a + b < TWO256 then .value (a + b)
  else .panicked "arithmetic operation overflow"

/-- The `balance_sum` fold of `get_selected_workers` (epoch_t.rs lines
78-82): `U256` additions starting from 0, each of which can panic on
overflow. -/
def sumBalances : List Nat → Nat → Panic Nat
  | [], acc => .value acc
  | b :: rest, acc =>
    match u256add acc b with
    | .panicked m => .panicked m
    | .value acc2 => sumBalances rest acc2

/-- `U256::overflowing_sub`: the wrapped difference and the borrow flag. -/
def overflowingSub (a b : Nat) : Nat × Bool :=
  ((a + TWO256 - b) % TWO256, a < b)

/-- Rust slice indexing: panics when the index is out of bounds. -/
def indexPanic (l : List Nat) (i : Nat) : Panic Nat :=
  match l.get? i with
  | some v => .value v
  | none => .panicked "index out of bounds"

/-- The inner `for i in 0..workers.len()` scan of `get_selected_workers`
(epoch_t.rs lines 95-103): subtract each stake from the running random
value; on borrow or on reaching exactly zero, select that worker and
break; `balances[i]` panics when the balances list is shorter than the
workers list. Falls through to the default (last) worker. -/
def forSelect : List Nat → List Nat → Nat → Nat → Panic Nat
  | [], _, _, defaultWorker => .value defaultWorker
  | _ :: _, [], _, _ => .panicked "index out of bounds"
  | w :: ws, b :: bs, randVal, defaultWorker =>
    let result := overflowingSub randVal b
    if result.2 ∨ result.1 = 0 then .value w
    else forSelect ws bs result.1 defaultWorker

/-- The do-while selection loop of `get_selected_workers` (epoch_t.rs
lines 86-112), with explicit `fuel` bounding the number of extra
iterations (the Rust loop can run unboundedly; `value none` models
running out of fuel, never the source returning). Each round: hash the
RLP token of `(seed, sc_addr, nonce)` with `keccak`, reduce modulo
`balanceSum` (PANICS with a division by zero when the sum is zero), read
the default worker `workers[workers.len() - 1]` (PANICS when the workers
list is empty), scan with `forSelect`, push the pick if new, increment
the nonce, and continue while fewer than `limit` workers are selected. -/
def selectionRounds (keccak : List Nat → Nat) (seed scAddr : Nat)
    (workers balances : List Nat) (balanceSum limit : Nat) :
    Nat → Nat → List Nat → Panic (Option (List Nat))
  | fuel, nonce, selected =>
    if balanceSum = 0 then .panicked "division by zero"
    else
      let token := encodeToken seed scAddr nonce
      let randVal := keccak token % balanceSum
      match indexPanic workers (workers.length - 1) with
      | .panicked m => .panicked m
      | .value defaultWorker =>
        match forSelect workers balances randVal defaultWorker with
        | .panicked m => .panicked m
        | .value selectedWorker =>
          let selected2 :=
            if selected.contains selectedWorker then selected
            else selected ++ [selectedWorker]
          match u256add nonce 1 with
          | .panicked m => .panicked m
          | .value nonce2 =>
            if selected2.length < limit then
              match fuel with
              | 0 => .value none
              | fuel2 + 1 =>
                selectionRounds keccak seed scAddr workers balances balanceSum limit
                  fuel2 nonce2 selected2
            else .value (some selected2)

/-- `WorkerParams::get_selected_workers` (epoch_t.rs lines 76-113):
compute the stake sum, run the selection loop from nonce 0 with an empty
selection, and wrap the selected workers in `Ok`. `group_size = none`
defaults the limit to 1. The function constructs no error value on any
path; its only non-`Ok` outcomes are panics (or fuel exhaustion of the
model, `value none`). -/
def get_selected_workers (keccak : List Nat → Nat) (p : WorkerParams)
    (scAddr : Nat) (groupSize : Option Nat) (fuel : Nat) :
    Panic (Option (Except EnclaveError (List Nat))) :=
  match sumBalances p.balances 0 with
  | .panicked m => .panicked m
  | .value balanceSum =>
    let limit := groupSize.getD 1
    match selectionRounds keccak p.seed scAddr p.workers p.balances balanceSum limit
        fuel 0 [] with
    | .panicked m => .panicked m
    | .value none => .value none
    | .value (some sel) => .value (some (.ok sel))


/-! ## Theorems -/

/-- C7: for every AEAD scheme with the functional correctness ring
guarantees, every key, every 12-byte nonce and every message, decrypting
the output of `encrypt_with_nonce` with the same key returns exactly the
original message. -/
theorem encrypt_then_decrypt_roundtrip (S : AeadScheme) (message key iv : List Nat)
    (hiv : iv.length = IV_SIZE) :
    ∃ c, encrypt_with_nonce S message key (some iv) [] = .ok c ∧
      decrypt S c key = .ok message := by
  refine ⟨S.aeadSeal key iv message ++ iv, rfl, ?_⟩
  have hlen : (S.aeadSeal key iv message ++ iv).length
      = (S.aeadSeal key iv message).length + IV_SIZE := by
    rw [List.length_append, hiv]
  have hnotshort : ¬ ((S.aeadSeal key iv message ++ iv).length < IV_SIZE) := by
    rw [hlen]; omega
  have harith : (S.aeadSeal key iv message ++ iv).length - IV_SIZE
      = (S.aeadSeal key iv message).length := by
    rw [hlen]; omega
  rw [decrypt, if_neg hnotshort, harith, List.take_left, List.drop_left]
  simp [S.aeadOpen_aeadSeal]

/-- Witness for C7 at a concrete scheme, key, nonce and message. -/
theorem encrypt_then_decrypt_roundtrip_witness :
    ∃ c, encrypt_with_nonce toyAead [1, 2, 3] (List.replicate 32 7)
        (some (List.replicate 12 0)) [] = .ok c ∧
      decrypt toyAead c (List.replicate 32 7) = .ok [1, 2, 3] :=
  encrypt_then_decrypt_roundtrip toyAead [1, 2, 3] (List.replicate 32 7)
    (List.replicate 12 0) (by decide)

/-- C9: against `ImportResolver::with_limit(64)`, a memory import named
"memory" resolves successfully if and only if its initial size is at
most 64 pages and it declares an explicit maximum of at most 64 pages;
in particular a descriptor with no declared maximum is rejected whatever
its initial size, because the effective maximum defaults to
`max_memory + 1 = 65`. -/
theorem resolve_memory_accepts_iff (initial : Nat) (maximum : Option Nat) :
    (∃ r, resolve_memory 64 "memory" initial maximum = .ok r) ↔
      initial ≤ 64 ∧ ∃ m, maximum = some m ∧ m ≤ 64 := by
  cases maximum with
  | none =>
    simp only [resolve_memory, if_pos rfl, Option.getD]
    constructor
    · intro h
      rcases h with ⟨r, hr⟩
      simp only [show (64 + 1 : Nat) > 64 by omega, or_true, if_pos] at hr
      cases hr
    · rintro ⟨-, m, hm, -⟩
      cases hm
  | some m =>
    simp only [resolve_memory, if_pos rfl, Option.getD]
    by_cases h : initial > 64 ∨ m > 64
    · rw [if_pos h]
      constructor
      · rintro ⟨r, hr⟩
        cases hr
      · rintro ⟨h1, m2, hm2, h2⟩
        injection hm2 with hm2
        subst hm2
        omega
    · rw [if_neg h]
      push_neg at h
      constructor
      · intro _
        exact ⟨by omega, m, rfl, by omega⟩
      · intro _
        exact ⟨_, rfl⟩

/-- C1 counterexample: importing the host function name "write_state"
does not resolve; `resolve_func` returns an instantiation error for it,
contradicting the claim that all four of `write_state`, `read_state`,
`from_memory` and `ret` resolve successfully. -/
theorem resolve_func_write_state_fails :
    resolve_func "write_state" = .error "Export write_state not found" := rfl

/-- C1 amended: the import resolver in wasm_g/eng_resolver.rs exposes
exactly one host function: a function import resolves successfully if
and only if its name is "ret"; every other name — including
`write_state`, `read_state` and `from_memory` — fails with an
instantiation error. -/
theorem resolve_func_only_ret (name : String) :
    (∃ r, resolve_func name = .ok r) ↔ name = "ret" := by
  constructor
  · rintro ⟨r, hr⟩
    by_cases hn : name = "ret"
    · exact hn
    · rw [resolve_func, if_neg hn] at hr
      cases hr
  · intro h
    subst h
    exact ⟨RET_FUNC, by rw [resolve_func, if_pos rfl]⟩

/-- C3 counterexample: a module importing a linear memory of 65 initial
pages (above the configured maximum of 64) makes the executor PANIC at
`ModuleInstance::new(...).expect("failed to instantiate wasm module")`
instead of returning a typed instantiation error. -/
theorem execute_oversized_memory_panic_example :
    execute (σ := Unit) { funcImports := [], memoryImport := some ("memory", 65, none) }
      (.ok { resultBytes := [], usedGas := 0, newState := () })
      = .panicked "failed to instantiate wasm module" := rfl

/-- Helper for C3: any memory descriptor with an initial size above the
configured maximum is rejected by `resolve_memory`, whatever its name
and declared maximum. -/
theorem resolve_memory_initial_too_big (max_memory : Nat) (name : String)
    (ini : Nat) (mx : Option Nat) (h : ini > max_memory) :
    ∃ e, resolve_memory max_memory name ini mx = .error e := by
  unfold resolve_memory
  by_cases hn : name = "memory"
  · rw [if_pos hn, if_pos (Or.inl h)]
    exact ⟨_, rfl⟩
  · rw [if_neg hn]
    exact ⟨_, rfl⟩

/-- C3 amended: for every module whose memory import requests more than
64 initial pages, and whatever the interpreter would do with the
instantiated module, `execute` PANICS with the `expect` message
"failed to instantiate wasm module" (the import resolver does reject
the request with an instantiation error, but `execute` unwraps it); no
`RuntimeResult` — and hence no new contract state — is produced. -/
theorem execute_oversized_memory_panics (m : WasmImports) (name : String)
    (ini : Nat) (mx : Option Nat) (invoke : Except String (RuntimeResult σ))
    (hmem : m.memoryImport = some (name, ini, mx)) (hini : ini > 64) :
    execute m invoke = .panicked "failed to instantiate wasm module" := by
  have hres : ∃ e, resolveImports 64 m = .error e := by
    unfold resolveImports
    cases hfold : m.funcImports.foldlM
        (fun _ name2 => do
          let _ ← resolve_func name2
          pure ()) () with
    | error e => exact ⟨e, by rw [hmem]; simp [hfold, Bind.bind, Except.bind]⟩
    | ok u =>
      rcases resolve_memory_initial_too_big 64 name ini mx hini with ⟨e, he⟩
      exact ⟨e, by rw [hmem]; simp [hfold, Bind.bind, Except.bind, he]⟩
  rcases hres with ⟨e, he⟩
  unfold execute
  rw [he]

/-- Witness for C3 amended at a concrete module. -/
theorem execute_oversized_memory_panics_witness :
    execute (σ := Unit) { funcImports := ["ret"], memoryImport := some ("memory", 100, some 100) }
      (.ok { resultBytes := [], usedGas := 0, newState := () })
      = .panicked "failed to instantiate wasm module" :=
  execute_oversized_memory_panics _ "memory" 100 (some 100) _ rfl (by decide)

/-- C4 counterexample: a sealed blob whose MAC verification fails is
returned as `Ok(None)` by `unseal` — exactly the first-boot signal of a
missing document — not as an error. -/
theorem unseal_mac_mismatch_gives_ok_none :
    unsealDocument (α := Nat) (some (.error SgxStatus.macMismatch)) = .ok none := rfl

/-- C4 amended: `unseal` returns `Ok(None)` on `SGX_ERROR_MAC_MISMATCH`
(the tampered blob is treated like absent data and leads to first-boot
generation); it fails with an `OcallError` when the sealed log holds no
parseable sealed data and on every unsealing failure other than MAC
mismatch; a successful unseal returns the stored record. -/
theorem unseal_failure_modes (α : Type) (d : α) (e : SgxStatus)
    (he : e ≠ SgxStatus.macMismatch) :
    unsealDocument (α := α) (some (.error SgxStatus.macMismatch)) = .ok none ∧
    unsealDocument (α := α) (some (.error e))
      = .error (.ocallError "unseal" "unseal_data failed") ∧
    unsealDocument (α := α) none
      = .error (.ocallError "unseal" "Data not found in the sealed_log.") ∧
    unsealDocument (some (.ok d)) = .ok (some d) := by
  refine ⟨by simp [unsealDocument], ?_, rfl, rfl⟩
  simp [unsealDocument, he]

/-- Witness for C4 amended at a concrete non-MAC failure status. -/
theorem unseal_failure_modes_witness :
    unsealDocument (α := Nat) (some (.error (SgxStatus.other "SGX_ERROR_UNEXPECTED")))
      = .error (.ocallError "unseal" "unseal_data failed") :=
  (unseal_failure_modes Nat 5 (SgxStatus.other "SGX_ERROR_UNEXPECTED") (by simp)).2.1


/-- C8 counterexample: when the trusted region fails to initialize, the
worker logs and returns from `main` normally — the process exits with
code 0, not a non-zero code. -/
theorem main_init_failure_exits_zero :
    mainExitCode (.error "SGX_ERROR_NO_DEVICE") (.ok ()) = 0 := rfl

/-- C8 amended: the worker exits with code 0 on failure to initialize
the trusted region (the init error branch of `main` is a plain
`return`); it exits non-zero (the panic exit code, from the `unwrap` of
the awaited server future) exactly when initialization succeeded and the
transport server loop failed. -/
theorem mainExitCode_characterization :
    (∀ e s, mainExitCode (.error e) s = 0) ∧
    (∀ e, mainExitCode (.ok ()) (.error e) = 101) ∧
    mainExitCode (.ok ()) (.ok ()) = 0 :=
  ⟨fun _ s => by cases s <;> rfl, fun _ => rfl, rfl⟩

/-- C5 counterexample: an inbound frame that does not parse as a valid
`IpcMessage` makes the dispatcher PANIC (the `expect` in
`From<Message> for IpcMessage`); no `Error { msg }` response is
produced for it, whatever the handler would have answered. -/
theorem dispatcher_unparseable_frame_panics :
    handle_message (.error "expected value at line 1 column 1")
      (fun _ => .ok (.getAllTips (.tips [])))
      = .panicked "expected value at line 1 column 1" := rfl

/-- C5 amended: a handler failure on a well-formed request frame is
converted at the dispatcher boundary into an `Error { msg }` response
carrying the original request id (via `unwrap_or_error` and
`from_response`), and every well-formed request gets a reply under its
own id; but a frame that does not parse as a valid `IpcMessage` — or a
frame whose body is a response — panics the dispatcher instead of being
answered. -/
theorem dispatcher_error_conversion :
    (∀ id req handler,
      handle_message (.ok { id := id, kind := .ipcRequest req }) handler
        = .value (IpcMessage.from_response (unwrap_or_error (handler req)) id)) ∧
    (∀ e, unwrap_or_error (.error e) = .errorResponse e) ∧
    (∀ id req handler e, handler req = .error e →
      handle_message (.ok { id := id, kind := .ipcRequest req }) handler
        = .value { id := id, kind := .ipcResponse (.errorResponse e) }) ∧
    (∀ s handler, handle_message (.error s) handler = .panicked s) := by
  refine ⟨fun id req handler => rfl, fun e => rfl, ?_, fun s handler => rfl⟩
  intro id req handler e he
  simp [handle_message, ipcMessageFromFrame, IpcMessage.unwrap_request,
    unwrap_or_error, he, IpcMessage.from_response]

/-- Witness for C5 amended: a concrete failing handler is answered by
an `Error` response under the original id. -/
theorem dispatcher_error_conversion_witness :
    handle_message (.ok { id := "42", kind := .ipcRequest .getAllTips })
      (fun _ => .error "States Error")
      = .value { id := "42", kind := .ipcResponse (.errorResponse "States Error") } :=
  dispatcher_error_conversion.2.2.1 "42" .getAllTips (fun _ => .error "States Error")
    "States Error" rfl

/-- Concrete prior state for the delta-generation claims: delta chain
position 0 with a zero last-delta hash. -/
def beforeState : ContractState Nat :=
  { contract_id := 7, json := 1, delta_hash := List.replicate 32 0, delta_index := 0 }

/-- Concrete posterior state one chain position later. -/
def afterState : ContractState Nat :=
  { contract_id := 7, json := 2, delta_hash := List.replicate 32 5, delta_index := 1 }

/-- C6 counterexample: for states with `after.delta_index =
before.delta_index + 1`, the generated patch has `previous_hash =
before.delta_hash` but `index = before.delta_index + 1`, not
`before.delta_index` — exactly what the in-src test
`test_generate_delta` pins (patch index 1 from a before state of delta
index 0). -/
theorem generate_delta_index_counterexample :
    afterState.delta_index = beforeState.delta_index + 1 ∧
    generate_delta (fun a b : Nat => b - a) beforeState afterState
      = .ok { patch := 1, previous_hash := List.replicate 32 0, contract_id := 7, index := 1 } ∧
    (1 : Nat) ≠ beforeState.delta_index := by
  refine ⟨rfl, rfl, by decide⟩

/-- C6 amended: for every pair of contract states with the same contract
address and `after.delta_index = before.delta_index + 1`,
`generate_delta` returns a `StatePatch` whose `previous_hash` equals
the last delta hash of before and whose `index` equals
`before.delta_index + 1` (that is, `after.delta_index`). -/
theorem generate_delta_fields (J P : Type) (diff : J → J → P)
    (before after : ContractState J)
    (haddr : after.contract_id = before.contract_id)
    (hidx : after.delta_index = before.delta_index + 1) :
    ∃ p, generate_delta diff before after = .ok p ∧
      p.previous_hash = before.delta_hash ∧
      p.index = before.delta_index + 1 ∧
      p.index = after.delta_index :=
  ⟨_, rfl, rfl, rfl, by rw [hidx]⟩

/-- Witness for C6 amended at the concrete state pair. -/
theorem generate_delta_fields_witness :
    ∃ p, generate_delta (fun a b : Nat => b - a) beforeState afterState = .ok p ∧
      p.previous_hash = beforeState.delta_hash ∧
      p.index = beforeState.delta_index + 1 ∧
      p.index = afterState.delta_index :=
  generate_delta_fields Nat Nat (fun a b : Nat => b - a) beforeState afterState
    (by decide) (by decide)


/-- Helper: the balance fold returns the mathematical sum when no `U256`
addition overflows. -/
theorem sumBalances_value (bs : List Nat) (acc : Nat) (h : acc + bs.sum < TWO256) :
    sumBalances bs acc = .value (acc + bs.sum) := by
  induction bs generalizing acc with
  | nil => simp [sumBalances]
  | cons b rest ih =>
    have hadd : acc + b < TWO256 := by
      simp only [List.sum_cons] at h
      omega
    have hu : u256add acc b = .value (acc + b) := by
      rw [u256add, if_pos hadd]
    have h2 : (acc + b) + rest.sum < TWO256 := by
      simp only [List.sum_cons] at h
      omega
    simp only [sumBalances, hu, ih (acc + b) h2, List.sum_cons]
    congr 1
    omega

/-- Helper: a returned balance fold value is the mathematical sum. -/
theorem sumBalances_eq (bs : List Nat) (acc s : Nat)
    (h : sumBalances bs acc = .value s) : s = acc + bs.sum := by
  induction bs generalizing acc with
  | nil =>
    simp only [sumBalances] at h
    cases h
    simp
  | cons b rest ih =>
    rw [sumBalances] at h
    cases hu : u256add acc b with
    | panicked m =>
      rw [hu] at h
      cases h
    | value acc2 =>
      rw [hu] at h
      have hacc2 : acc2 = acc + b := by
        rw [u256add] at hu
        by_cases hlt : acc + b < TWO256
        · rw [if_pos hlt] at hu
          cases hu
          rfl
        · rw [if_neg hlt] at hu
          cases hu
      have := ih acc2 h
      simp only [List.sum_cons]
      omega

/-- C2 counterexample: the byte string hashed per selection round — the
RLP encoding of `WorkerSelectionToken` that the source feeds to
`keccak256` — is not the flat concatenation of three 32-byte big-endian
fields: already at `seed = 1`, `contract_address = 2`, `nonce = 0` the
two encodings differ (the RLP token is 36 bytes, with a list header and
trimmed integer fields, against 96 flat bytes). -/
theorem token_encoding_counterexample :
    encodeToken 1 2 0 ≠ specTokenEncoding 1 2 0 := by decide

/-- C2 amended: the token hashed in each selection round is the RLP list
encoding of `(seed, contract_address, selection_nonce)` — the two U256
fields as minimal big-endian strings, the address as a 32-byte string —
and for the default group size the worker selected by
`get_selected_workers` is exactly the one picked by the stake-subtract
scan (with its borrow/zero tie-break) from `keccak256` of that RLP
encoding taken modulo the stake sum. -/
theorem selected_worker_from_rlp_token (keccak : List Nat → Nat) (p : WorkerParams)
    (scAddr fuel dw w : Nat)
    (hsum0 : p.balances.sum ≠ 0) (hsum : p.balances.sum < TWO256)
    (hdw : indexPanic p.workers (p.workers.length - 1) = .value dw)
    (hpick : forSelect p.workers p.balances
      (keccak (encodeToken p.seed scAddr 0) % p.balances.sum) dw = .value w) :
    get_selected_workers keccak p scAddr none fuel = .value (some (.ok [w])) := by
  have hsb : sumBalances p.balances 0 = .value p.balances.sum := by
    have h0 : 0 + p.balances.sum < TWO256 := by omega
    simpa using sumBalances_value p.balances 0 h0
  have hone : u256add 0 1 = .value 1 := by
    rw [u256add, if_pos (by decide)]
  unfold get_selected_workers
  simp only [hsb, Option.getD]
  rw [selectionRounds]
  rw [if_neg hsum0]
  simp only [hdw, hpick, hone, List.contains, List.elem, List.nil_append,
    List.length_cons, List.length_nil]
  simp

/-- Witness for C2 amended at a concrete hash function and epoch. -/
theorem selected_worker_from_rlp_token_witness :
    get_selected_workers (fun _ => 0)
      { block_number := 0, workers := [5], balances := [1], nonce := 0, seed := 0 }
      0 none 0 = .value (some (.ok [5])) :=
  selected_worker_from_rlp_token (fun _ => 0)
    { block_number := 0, workers := [5], balances := [1], nonce := 0, seed := 0 }
    0 0 5 5 (by decide) (by decide) (by decide) (by decide)

/-- C10: `get_selected_workers` returns a value only when the workers
list is nonempty and the stake sum is nonzero; a zero stake sum makes
the `keccak256-hash mod sum` reduction PANIC with a division by zero;
an empty workers list (with a nonzero, representable stake sum, so the
earlier modulo does not panic first) makes the
`workers[workers.len() - 1]` indexing PANIC; and no input whatsoever
makes the function return a `WorkerAuthError` (or any other error):
its only error-free outcomes are `Ok` selections. -/
theorem get_selected_workers_degenerate :
    (∀ keccak p scAddr gs fuel, p.balances.sum = 0 →
      get_selected_workers keccak p scAddr gs fuel = .panicked "division by zero") ∧
    (∀ keccak p scAddr gs fuel, p.workers = [] → p.balances.sum ≠ 0 →
      p.balances.sum < TWO256 →
      get_selected_workers keccak p scAddr gs fuel = .panicked "index out of bounds") ∧
    (∀ keccak p scAddr gs fuel sel,
      get_selected_workers keccak p scAddr gs fuel = .value (some (.ok sel)) →
      p.workers ≠ [] ∧ p.balances.sum ≠ 0) ∧
    (∀ keccak p scAddr gs fuel e,
      get_selected_workers keccak p scAddr gs fuel ≠ .value (some (.error e))) := by
  have hzero : ∀ (keccak : List Nat → Nat) (p : WorkerParams) (scAddr : Nat)
      (gs : Option Nat) (fuel : Nat), p.balances.sum = 0 →
      get_selected_workers keccak p scAddr gs fuel = .panicked "division by zero" := by
    intro keccak p scAddr gs fuel h0
    have hsb : sumBalances p.balances 0 = .value 0 := by
      have hlt : 0 + p.balances.sum < TWO256 := by
        rw [h0]
        decide
      simpa [h0] using sumBalances_value p.balances 0 hlt
    unfold get_selected_workers
    simp only [hsb]
    rw [selectionRounds]
    simp
  have hempty : ∀ (keccak : List Nat → Nat) (p : WorkerParams) (scAddr : Nat)
      (gs : Option Nat) (fuel : Nat), p.workers = [] → p.balances.sum ≠ 0 →
      p.balances.sum < TWO256 →
      get_selected_workers keccak p scAddr gs fuel = .panicked "index out of bounds" := by
    intro keccak p scAddr gs fuel hw h0 hlt
    have hsb : sumBalances p.balances 0 = .value p.balances.sum := by
      have hlt2 : 0 + p.balances.sum < TWO256 := by omega
      simpa using sumBalances_value p.balances 0 hlt2
    unfold get_selected_workers
    simp only [hsb]
    rw [selectionRounds]
    rw [if_neg h0]
    simp [hw, indexPanic]
  refine ⟨hzero, hempty, ?_, ?_⟩
  · intro keccak p scAddr gs fuel sel h
    have h0 : p.balances.sum ≠ 0 := by
      intro h0
      rw [hzero keccak p scAddr gs fuel h0] at h
      cases h
    refine ⟨?_, h0⟩
    intro hw
    cases hsb : sumBalances p.balances 0 with
    | panicked m =>
      unfold get_selected_workers at h
      simp only [hsb] at h
      exact Panic.noConfusion h
    | value s =>
      have hs : s = p.balances.sum := by
        have := sumBalances_eq p.balances 0 s hsb
        omega
      unfold get_selected_workers at h
      simp only [hsb] at h
      rw [selectionRounds] at h
      rw [if_neg (by rw [hs]; exact h0)] at h
      simp [hw, indexPanic] at h
  · intro keccak p scAddr gs fuel e h
    unfold get_selected_workers at h
    cases hsb : sumBalances p.balances 0 with
    | panicked m =>
      simp only [hsb] at h
      exact Panic.noConfusion h
    | value s =>
      simp only [hsb] at h
      cases hsr : selectionRounds keccak p.seed scAddr p.workers p.balances s
          (gs.getD 1) fuel 0 [] with
      | panicked m =>
        simp only [hsr] at h
        exact Panic.noConfusion h
      | value o =>
        cases o with
        | none =>
          simp only [hsr] at h
          simp at h
        | some sel =>
          simp only [hsr] at h
          simp at h

/-- Witness for C10 at concrete degenerate inputs: a zero stake sum
panics at the modulo, an empty workers list panics at the indexing. -/
theorem get_selected_workers_degenerate_witness :
    get_selected_workers (fun _ => 0)
      { block_number := 0, workers := [5], balances := [0], nonce := 0, seed := 0 }
      0 none 1 = .panicked "division by zero" ∧
    get_selected_workers (fun _ => 0)
      { block_number := 0, workers := [], balances := [3], nonce := 0, seed := 0 }
      0 none 1 = .panicked "index out of bounds" :=
  ⟨get_selected_workers_degenerate.1 _ _ _ _ _ (by decide),
   get_selected_workers_degenerate.2.1 _ _ _ _ _ rfl (by decide) (by decide)⟩


end Enigma
